import Mathlib

/-!
Shallow embedding of `document_finder.py` from the AGSbuilder repository.

The Python module defines a single class `Documents` that reconciles three
data sources: a filesystem scan for `*.mxd` map documents (root directory
plus immediate subdirectories), an optional publish history, and an optional
settings object with duck-typed optional attributes.

Modelling choices:
* The filesystem and the two `util` collaborator functions
  (`get_service_url_from_ags_file`, `get_services_from_server`) are passed
  as an explicit environment `Env` of uninterpreted functions.
* Python `None` is `Option.none`; a Python attribute that may be absent is
  an outer `Option` (`none` = `AttributeError` would be raised on access).
* The dynamic value stored in `Documents.history` is either a list of
  3-tuples or a string path (the setter's docstring allows both), captured
  by `HistoryVal`; `Option HistoryVal` adds the `None` case.
* Log records are accumulated explicitly: each stateful operation returns
  its result together with the list of records it emits, where a record
  keeps the level and the (un-interpolated) format string of the call.
* Paths are strings; `os.path.join` and the extension part of
  `os.path.splitext` are implemented following CPython's `posixpath` /
  `genericpath` code.
* `items_to_unpublish` returns `Except String (List Doc)` because iterating
  a non-empty string history raises `ValueError` in Python (each character
  cannot be unpacked into a 3-tuple); all other paths return `.ok`.
-/

/-- One record emitted by the `logging` module: level plus format string. -/
inductive LogLevel where
  | debug
  | info
  | warn
  deriving DecidableEq, Repr

structure LogEntry where
  level : LogLevel
  msg : String
  deriving DecidableEq, Repr

/-- A history entry `(source_path, service_folder, service_name)`.
`source_path` and `service_folder` may be Python `None`. -/
abbrev HistoryEntry := Option String × Option String × String

/-- The dynamic value a `Documents.history` field can hold when not `None`:
either a list of 3-tuples or a path string (per the setter's docstring). -/
inductive HistoryVal where
  | entries : List HistoryEntry → HistoryVal
  | pathStr : String → HistoryVal
  deriving DecidableEq, Repr

/-- The settings object: four duck-typed optional attributes.  The outer
`Option` is attribute presence (`none` = accessing it raises
`AttributeError`); the inner value is the Python value, itself possibly
`None`. -/
structure Settings where
  root_directory : Option (Option String) := none
  history_file : Option (Option HistoryVal) := none
  server_url : Option (Option String) := none
  server : Option (Option String) := none
  deriving DecidableEq, Repr

/-- `Doc` is an external collaborator (`publishable_doc.Doc`); only its
constructor arguments matter here: `Doc(path, folder=folder, config=settings)`. -/
structure Doc where
  path : Option String
  folder : Option String
  config : Option Settings
  deriving DecidableEq, Repr

/-- The filesystem as seen through the three `os` calls the code makes. -/
structure FileSystem where
  listdir : String → List String
  isdir : String → Bool
  isfile : String → Bool

/-- External collaborators: the filesystem plus the two `util` functions. -/
structure Env where
  fs : FileSystem
  get_service_url_from_ags_file : Option String → Option String
  get_services_from_server : String → List (Option String × String)

/-- Attribute access `settings.root_directory` where `settings` itself may be
`None` (then the access also raises `AttributeError`, i.e. `none`). -/
def attrRootDirectory (s? : Option Settings) : Option (Option String) :=
  s?.bind (fun s => s.root_directory)

def attrHistoryFile (s? : Option Settings) : Option (Option HistoryVal) :=
  s?.bind (fun s => s.history_file)

def attrServerUrl (s? : Option Settings) : Option (Option String) :=
  s?.bind (fun s => s.server_url)

def attrServer (s? : Option Settings) : Option (Option String) :=
  s?.bind (fun s => s.server)

/-- Index of the last occurrence of `c`, as in Python's `str.rfind`
(`none` = not found). -/
def lastIndexOf (c : Char) : List Char → Option Nat
  | [] => none
  | x :: xs =>
    match lastIndexOf c xs with
    | some i => some (i + 1)
    | none => if x = c then some 0 else none

/-- The extension component of `os.path.splitext(p)`, following CPython's
`genericpath._splitext` with separator `/`: the part from the last dot on,
provided there is a non-dot character between the last separator and that
dot; otherwise the empty string. -/
def splitextExt (p : String) : String :=
  let cs := p.toList
  let sepIndex : Int := match lastIndexOf '/' cs with | some i => (i : Int) | none => -1
  let dotIndex : Int := match lastIndexOf '.' cs with | some i => (i : Int) | none => -1
  if sepIndex < dotIndex then
    let start := (sepIndex + 1).toNat
    let filename := (cs.drop start).take (dotIndex.toNat - start)
    if filename.any (fun ch => ch ≠ '.') then String.mk (cs.drop dotIndex.toNat) else ""
  else ""

/-- `os.path.join(a, b)` for the POSIX flavour of `os.path`. -/
def joinPath (a b : String) : String :=
  if b.startsWith "/" then b
  else if a = "" ∨ a.endsWith "/" then a ++ b
  else a ++ "/" ++ b

/-- `Documents.__find_mxds_in_folder`: names in `folder` whose lower-cased
extension is `.mxd`, joined to `folder`, kept only when a regular file. -/
def find_mxds_in_folder (fs : FileSystem) (folder : String) : List String :=
  let names := fs.listdir folder
  let mxds := names.filter (fun name => (splitextExt name).toLower = ".mxd")
  let paths := mxds.map (fun mxd => joinPath folder mxd)
  paths.filter (fun path => fs.isfile path)

/-- `Documents.__get_filesystem_mxds`: `(folder_or_none, fullpath)` pairs for
the root directory and each immediate subdirectory. -/
def get_filesystem_mxds (fs : FileSystem) (path : Option String) : List (Option String × String) :=
  match path with
  | none => []
  | some p =>
    if fs.isdir p then
      let rootMxds := (find_mxds_in_folder fs p).map (fun mxd => ((none : Option String), mxd))
      let folders := (fs.listdir p).filter (fun name => fs.isdir (joinPath p name))
      rootMxds ++ folders.flatMap (fun folder =>
        (find_mxds_in_folder fs (joinPath p folder)).map (fun mxd => (some folder, mxd)))
    else []

/-- The `Documents` object's fields (name-mangled `self.__...` in Python). -/
structure Documents where
  path : Option String
  history : Option HistoryVal
  filesystem_mxds : List (Option String × String)
  settings : Option Settings

/-- The `path` property setter: no-op when the value is unchanged, otherwise
log, store, and re-scan the filesystem. -/
def Documents.set_path (env : Env) (d : Documents) (new_value : Option String) :
    Documents × List LogEntry :=
  if new_value = d.path then (d, [])
  else
    ({ d with
        path := new_value,
        filesystem_mxds := get_filesystem_mxds env.fs new_value },
     [⟨.debug, "setting path from %s to %s"⟩])

/-- The `history` property setter: no-op when the value is unchanged,
otherwise log and store. -/
def Documents.set_history (d : Documents) (new_value : Option HistoryVal) :
    Documents × List LogEntry :=
  if new_value = d.history then (d, [])
  else
    ({ d with history := new_value },
     [⟨.debug, "setting history from %s to %s"⟩])

/-- `Documents.__get_history_from_server`: resolve a server URL from
`settings.server_url`, falling back to the URL derived from the connection
file `settings.server`; with no URL return `None`, otherwise wrap each
service reported by the server as `(None, folder, name)`. -/
def get_history_from_server (env : Env) (s? : Option Settings) :
    Option HistoryVal × List LogEntry :=
  let (server₀, log₁) :=
    match attrServerUrl s? with
    | some v => (v, ([] : List LogEntry))
    | none => (none, [⟨.info, "server_url not defined in the configuration settings"⟩])
  let (server₁, log₂) :=
    match server₀ with
    | some u => (some u, ([] : List LogEntry))
    | none =>
      let (conn_file, lg) :=
        match attrServer s? with
        | some v => (v, ([] : List LogEntry))
        | none => (none, [⟨.info, "server not defined in the configuration settings"⟩])
      (env.get_service_url_from_ags_file conn_file, lg)
  match server₁ with
  | none =>
    (none, log₁ ++ log₂ ++ [⟨.info, "Unable to get services (No server_url is defined)"⟩])
  | some url =>
    let services := env.get_services_from_server url
    (some (.entries (services.map (fun sv => ((none : Option String), sv.1, sv.2)))),
     log₁ ++ log₂ ++ [⟨.debug, "Found %s services at %s"⟩])

/-- `Documents.__init__`: resolve `path` (argument, else
`settings.root_directory`, else `None`) and `history` (argument, else
`settings.history_file`, else the server fetch), assigning through the
property setters.  `AttributeError` from a missing attribute is caught. -/
def Documents.init (env : Env) (path : Option String) (history : Option HistoryVal)
    (settings : Option Settings) : Documents × List LogEntry :=
  let d₀ : Documents := ⟨none, none, [], settings⟩
  let (d₁, logP) :=
    match path with
    | some p => d₀.set_path env (some p)
    | none =>
      match attrRootDirectory settings with
      | some v => d₀.set_path env v
      | none => d₀.set_path env none
  let (d₂, logH) :=
    match history with
    | some h => d₁.set_history (some h)
    | none =>
      match attrHistoryFile settings with
      | some v => d₁.set_history v
      | none =>
        let (fetched, logF) := get_history_from_server env settings
        let (d', lg) := d₁.set_history fetched
        (d', logF ++ lg)
  (d₂, logP ++ logH)

/-- `Documents.items_to_publish`: one `Doc(mxd, folder=folder, config=settings)`
per scanned document, unfiltered. -/
def items_to_publish (d : Documents) : List Doc × List LogEntry :=
  let mxds := d.filesystem_mxds
  (mxds.map (fun fm => Doc.mk (some fm.2) fm.1 d.settings),
   [⟨.debug, "Found %s documents to publish"⟩])

/-- `Documents.items_to_unpublish`:  `[]` when history is `None`; `[]` with a
warning when the scan is empty; otherwise one `Doc` per history entry whose
source path is not among the scanned full paths.  Iterating a non-empty
string history raises `ValueError` in Python (`.error`). -/
def items_to_unpublish (d : Documents) : Except String (List Doc) × List LogEntry :=
  match d.history with
  | none => (.ok [], [])
  | some hv =>
    if d.filesystem_mxds.length = 0 then
      (.ok [], [⟨.warn, "No *.mxd files found, Unwilling to unpublish all without an override."⟩])
    else
      match hv with
      | .entries l =>
        let source_paths := d.filesystem_mxds.map Prod.snd
        let docs := (l.filter (fun e =>
            match e.1 with
            | none => true
            | some s => !(source_paths.contains s))).map
          (fun e => Doc.mk e.1 e.2.1 d.settings)
        (.ok docs, [⟨.debug, "Found %s documents to UN-publish"⟩])
      | .pathStr s =>
        if s = "" then (.ok [], [⟨.debug, "Found %s documents to UN-publish"⟩])
        else (.error "ValueError: not enough values to unpack", [])

/-! ### Helper lemmas about the setters and the constructor -/

/-- After `set_path` the `path` field always equals the requested value
(also in the no-op branch, where old and new coincide). -/
theorem set_path_path (env : Env) (d : Documents) (v : Option String) :
    (d.set_path env v).1.path = v := by
  unfold Documents.set_path
  split
  · next h => simpa using h.symm
  · rfl

/-- `set_path` never touches `history` or `settings`. -/
theorem set_path_frame (env : Env) (d : Documents) (v : Option String) :
    (d.set_path env v).1.history = d.history ∧ (d.set_path env v).1.settings = d.settings := by
  unfold Documents.set_path
  split <;> exact ⟨rfl, rfl⟩

/-- `set_path` keeps the invariant that the cached scan matches the path. -/
theorem set_path_scan (env : Env) (d : Documents) (v : Option String)
    (h : d.filesystem_mxds = get_filesystem_mxds env.fs d.path) :
    (d.set_path env v).1.filesystem_mxds = get_filesystem_mxds env.fs v := by
  unfold Documents.set_path
  split
  · next he => rw [h, he]
  · rfl

/-- After `set_history` the `history` field always equals the requested value. -/
theorem set_history_history (d : Documents) (v : Option HistoryVal) :
    (d.set_history v).1.history = v := by
  unfold Documents.set_history
  split
  · next h => simpa using h.symm
  · rfl

/-- `set_history` never touches `path`, the cached scan, or `settings`. -/
theorem set_history_frame (d : Documents) (v : Option HistoryVal) :
    (d.set_history v).1.path = d.path ∧
    (d.set_history v).1.filesystem_mxds = d.filesystem_mxds ∧
    (d.set_history v).1.settings = d.settings := by
  unfold Documents.set_history
  split <;> exact ⟨rfl, rfl, rfl⟩

/-- The `path` the constructor resolves: the explicit argument, else the
`root_directory` attribute's value, else `None`. -/
def resolvedPath (path : Option String) (settings : Option Settings) : Option String :=
  match path with
  | some p => some p
  | none => (attrRootDirectory settings).join

/-- The `history` the constructor resolves: the explicit argument, else the
`history_file` attribute's value, else the server fetch result. -/
def resolvedHistory (env : Env) (history : Option HistoryVal)
    (settings : Option Settings) : Option HistoryVal :=
  match history with
  | some h => some h
  | none =>
    match attrHistoryFile settings with
    | some v => v
    | none => (get_history_from_server env settings).1

/-- Everything the constructor establishes: fields and the scan invariant. -/
theorem init_spec (env : Env) (path : Option String) (history : Option HistoryVal)
    (settings : Option Settings) :
    (Documents.init env path history settings).1.path = resolvedPath path settings ∧
    (Documents.init env path history settings).1.history = resolvedHistory env history settings ∧
    (Documents.init env path history settings).1.filesystem_mxds =
      get_filesystem_mxds env.fs (resolvedPath path settings) ∧
    (Documents.init env path history settings).1.settings = settings := by
  unfold Documents.init resolvedPath resolvedHistory
  have base : (Documents.mk none none [] settings).filesystem_mxds =
      get_filesystem_mxds env.fs (Documents.mk none none [] settings).path := rfl
  cases path with
  | some p =>
    cases history with
    | some h =>
      refine ⟨?_, ?_, ?_, ?_⟩ <;>
        simp [set_history_frame, set_history_history, set_path_path, set_path_frame,
          set_path_scan _ _ _ base]
    | none =>
      cases hhf : attrHistoryFile settings with
      | some v =>
        refine ⟨?_, ?_, ?_, ?_⟩ <;>
          simp [hhf, set_history_frame, set_history_history, set_path_path, set_path_frame,
            set_path_scan _ _ _ base]
      | none =>
        refine ⟨?_, ?_, ?_, ?_⟩ <;>
          simp [hhf, set_history_frame, set_history_history, set_path_path, set_path_frame,
            set_path_scan _ _ _ base]
  | none =>
    cases hrd : attrRootDirectory settings with
    | some v =>
      cases history with
      | some h =>
        refine ⟨?_, ?_, ?_, ?_⟩ <;>
          simp [hrd, set_history_frame, set_history_history, set_path_path, set_path_frame,
            set_path_scan _ _ _ base]
      | none =>
        cases hhf : attrHistoryFile settings with
        | some w =>
          refine ⟨?_, ?_, ?_, ?_⟩ <;>
            simp [hrd, hhf, set_history_frame, set_history_history, set_path_path,
              set_path_frame, set_path_scan _ _ _ base]
        | none =>
          refine ⟨?_, ?_, ?_, ?_⟩ <;>
            simp [hrd, hhf, set_history_frame, set_history_history, set_path_path,
              set_path_frame, set_path_scan _ _ _ base]
    | none =>
      cases history with
      | some h =>
        refine ⟨?_, ?_, ?_, ?_⟩ <;>
          simp [hrd, set_history_frame, set_history_history, set_path_path, set_path_frame,
            set_path_scan _ _ _ base]
      | none =>
        cases hhf : attrHistoryFile settings with
        | some w =>
          refine ⟨?_, ?_, ?_, ?_⟩ <;>
            simp [hrd, hhf, set_history_frame, set_history_history, set_path_path,
              set_path_frame, set_path_scan _ _ _ base]
        | none =>
          refine ⟨?_, ?_, ?_, ?_⟩ <;>
            simp [hrd, hhf, set_history_frame, set_history_history, set_path_path,
              set_path_frame, set_path_scan _ _ _ base]

/-! ### Claim theorems -/

/-- **C3**: `items_to_publish` returns exactly one `Doc` per document found
by the current filesystem scan, built from the document's full path, its
folder (or `None`) and the settings object, in scan order, unfiltered; in
particular the result has the same length as the scan result. -/
theorem items_to_publish_unfiltered (env : Env) (path : Option String)
    (history : Option HistoryVal) (settings : Option Settings) :
    ((Documents.init env path history settings).1.filesystem_mxds =
      get_filesystem_mxds env.fs (Documents.init env path history settings).1.path) ∧
    ((items_to_publish (Documents.init env path history settings).1).1 =
      (Documents.init env path history settings).1.filesystem_mxds.map
        (fun fm => Doc.mk (some fm.2) fm.1 settings)) ∧
    ((items_to_publish (Documents.init env path history settings).1).1.length =
      (Documents.init env path history settings).1.filesystem_mxds.length) := by
  obtain ⟨hp, _, hm, hs⟩ := init_spec env path history settings
  refine ⟨by rw [hm, hp], ?_, by simp [items_to_publish]⟩
  simp [items_to_publish, hs]

/-- **C4**: the constructor resolves `path` as explicit argument, else the
`root_directory` attribute's value, else `None`; and `history` as explicit
argument, else the `history_file` attribute's value, else the result of the
server fetch.  A missing settings attribute never raises: `Documents.init`
is a total function covering exactly these fallbacks. -/
theorem init_resolution_order (env : Env) (path : Option String)
    (history : Option HistoryVal) (settings : Option Settings) :
    ((Documents.init env path history settings).1.path =
      match path with
      | some p => some p
      | none => (attrRootDirectory settings).join) ∧
    ((Documents.init env path history settings).1.history =
      match history with
      | some h => some h
      | none =>
        match attrHistoryFile settings with
        | some v => v
        | none => (get_history_from_server env settings).1) := by
  obtain ⟨hp, hh, _, _⟩ := init_spec env path history settings
  exact ⟨hp, hh⟩

/-- **C7**: assigning the current value to `path` leaves the object
unchanged and emits no log record, for every environment (so no re-scan can
occur); assigning a different value stores it, re-scans the filesystem for
the new path, leaves the other fields alone, and logs the change. -/
theorem set_path_noop_and_update (d : Documents) :
    (∀ env : Env, d.set_path env d.path = (d, [])) ∧
    (∀ (env : Env) (v : Option String), v ≠ d.path →
      (d.set_path env v).1.path = v ∧
      (d.set_path env v).1.filesystem_mxds = get_filesystem_mxds env.fs v ∧
      (d.set_path env v).1.history = d.history ∧
      (d.set_path env v).1.settings = d.settings ∧
      (d.set_path env v).2 = [⟨.debug, "setting path from %s to %s"⟩]) := by
  constructor
  · intro env
    unfold Documents.set_path
    simp
  · intro env v hv
    unfold Documents.set_path
    simp [hv]

/-- Concrete `Documents` value used by witnesses. -/
def dGuard : Documents := ⟨some "/a", none, [], none⟩

/-- A trivial concrete environment: empty filesystem, no server. -/
def envTrivial : Env := ⟨⟨fun _ => [], fun _ => false, fun _ => false⟩, fun _ => none, fun _ => []⟩

/-- Witness for **C7** at a concrete object: re-assigning `some "/a"` is a
no-op without logs, assigning `some "/b"` updates and re-scans. -/
theorem set_path_noop_and_update_witness :
    dGuard.set_path envTrivial (some "/a") = (dGuard, []) ∧
    (dGuard.set_path envTrivial (some "/b")).1.path = some "/b" ∧
    (dGuard.set_path envTrivial (some "/b")).1.filesystem_mxds =
      get_filesystem_mxds envTrivial.fs (some "/b") ∧
    (dGuard.set_path envTrivial (some "/b")).2 =
      [⟨.debug, "setting path from %s to %s"⟩] := by
  have h₁ := (set_path_noop_and_update dGuard).1 envTrivial
  have h₂ := (set_path_noop_and_update dGuard).2 envTrivial (some "/b") (by decide)
  exact ⟨h₁, h₂.1, h₂.2.1, h₂.2.2.2.2⟩

/-- **C9**: for a `path` that is `None` or does not name an existing
directory, the filesystem scan is total and returns `[]` without consulting
`listdir`, and `items_to_publish` on an object constructed with that path is
empty, for every history and settings. -/
theorem scan_total_on_invalid_path (env : Env) (p : Option String)
    (h : ∀ s, p = some s → env.fs.isdir s = false) :
    get_filesystem_mxds env.fs p = [] ∧
    (∀ (history : Option HistoryVal) (settings : Option Settings),
      attrRootDirectory settings = none ∨ p ≠ none →
      (items_to_publish (Documents.init env p history settings).1).1 = []) := by
  have hscan : get_filesystem_mxds env.fs p = [] := by
    cases p with
    | none => rfl
    | some s =>
      unfold get_filesystem_mxds
      simp [h s rfl]
  refine ⟨hscan, ?_⟩
  intro history settings hcase
  obtain ⟨hp, _, hm, hs⟩ := init_spec env p history settings
  have hres : resolvedPath p settings = p := by
    cases p with
    | some q => rfl
    | none =>
      cases hcase with
      | inl ha => simp [resolvedPath, ha]
      | inr hb => exact absurd rfl hb
  simp [items_to_publish, hm, hres, hscan]

/-- Witness for **C9** at a concrete input: a path naming no directory. -/
theorem scan_total_on_invalid_path_witness :
    get_filesystem_mxds envTrivial.fs (some "/nope") = [] ∧
    (items_to_publish (Documents.init envTrivial (some "/nope") none none).1).1 = [] := by
  have h := scan_total_on_invalid_path envTrivial (some "/nope")
    (by intro s _; rfl)
  exact ⟨h.1, h.2 none none (by simp)⟩

/-- Membership in `find_mxds_in_folder`: a full path is found exactly when it
joins the folder with a listed name whose lower-cased extension is `.mxd`
and it is a regular file. -/
theorem mem_find_mxds_in_folder (fs : FileSystem) (folder p : String) :
    p ∈ find_mxds_in_folder fs folder ↔
      ∃ name ∈ fs.listdir folder,
        (splitextExt name).toLower = ".mxd" ∧ p = joinPath folder name ∧
        fs.isfile p = true := by
  unfold find_mxds_in_folder
  simp only [List.mem_filter, List.mem_map]
  constructor
  · rintro ⟨⟨name, ⟨hmem, hext⟩, hjoin⟩, hfile⟩
    exact ⟨name, hmem, by simpa using hext, hjoin.symm, hfile⟩
  · rintro ⟨name, hmem, hext, hjoin, hfile⟩
    exact ⟨⟨name, ⟨hmem, by simpa using hext⟩, hjoin.symm⟩, hfile⟩

/-- **C2**: the scan of an existing root yields exactly the `(None, path)`
pairs for regular files directly in the root whose lower-cased extension is
`.mxd`, plus the `(folder, path)` pairs for such files directly inside each
immediate subdirectory; nothing deeper, nothing with another extension, and
no directory masquerading as a `.mxd` file is ever yielded. -/
theorem get_filesystem_mxds_mem (fs : FileSystem) (root : String)
    (f : Option String) (p : String) :
    (f, p) ∈ get_filesystem_mxds fs (some root) ↔
      (fs.isdir root = true ∧
        ((f = none ∧ ∃ name ∈ fs.listdir root,
            (splitextExt name).toLower = ".mxd" ∧ p = joinPath root name ∧
            fs.isfile p = true) ∨
         (∃ folder ∈ fs.listdir root, fs.isdir (joinPath root folder) = true ∧
            f = some folder ∧
            ∃ name ∈ fs.listdir (joinPath root folder),
              (splitextExt name).toLower = ".mxd" ∧
              p = joinPath (joinPath root folder) name ∧
              fs.isfile p = true))) := by
  unfold get_filesystem_mxds
  by_cases hd : fs.isdir root = true
  · simp only [hd, if_true, List.mem_append, List.mem_map, List.mem_flatMap,
      List.mem_filter, true_and]
    constructor
    · rintro (⟨mxd, hmxd, heq⟩ | ⟨folder, ⟨hmemf, hdirf⟩, mxd, hmxd, heq⟩)
      · obtain ⟨hf, hp⟩ := Prod.mk.injEq .. ▸ heq
        exact Or.inl ⟨hf.symm, by
          have := (mem_find_mxds_in_folder fs root mxd).mp hmxd
          rw [← hp]; exact this⟩
      · obtain ⟨hf, hp⟩ := Prod.mk.injEq .. ▸ heq
        refine Or.inr ⟨folder, hmemf, hdirf, hf.symm, ?_⟩
        have := (mem_find_mxds_in_folder fs (joinPath root folder) mxd).mp hmxd
        rw [← hp]; exact this
    · rintro (⟨hf, name, hmem, hext, hjoin, hfile⟩ |
        ⟨folder, hmemf, hdirf, hf, name, hmem, hext, hjoin, hfile⟩)
      · exact Or.inl ⟨p, (mem_find_mxds_in_folder fs root p).mpr
          ⟨name, hmem, hext, hjoin, hfile⟩, by rw [hf]⟩
      · exact Or.inr ⟨folder, ⟨hmemf, hdirf⟩, p,
          (mem_find_mxds_in_folder fs (joinPath root folder) p).mpr
            ⟨name, hmem, hext, hjoin, hfile⟩, by rw [hf]⟩
  · simp [hd]

/-- The code's membership test `path not in source_paths` agrees with the
claim-level one on `Option`-valued source paths: `None` is never a member of
a set of strings. -/
theorem unpublish_filter_agrees (mxds : List (Option String × String)) (e : HistoryEntry) :
    (match e.1 with
     | none => true
     | some s => !((mxds.map Prod.snd).contains s)) =
    decide (e.1 ∉ mxds.map (fun fm => some fm.2)) := by
  cases he : e.1 with
  | none => simp [List.mem_map]
  | some s =>
    simp only [List.contains, List.elem_eq_mem, List.mem_map, decide_not]
    congr 1
    simp [decide_eq_decide]

/-- **C1**: `items_to_unpublish` returns `[]` when history is `None`;
returns `[]` with a warning when history exists but the current scan found
nothing; and otherwise returns exactly one `Doc` (from the entry's source
path, folder, and the settings object) per history entry whose source path
is not among the full paths of the current scan, and none for the others. -/
theorem items_to_unpublish_cases (d : Documents) :
    (d.history = none → items_to_unpublish d = (.ok [], [])) ∧
    (∀ hv, d.history = some hv → d.filesystem_mxds = [] →
      items_to_unpublish d =
        (.ok [], [⟨.warn, "No *.mxd files found, Unwilling to unpublish all without an override."⟩])) ∧
    (∀ l, d.history = some (.entries l) → d.filesystem_mxds ≠ [] →
      items_to_unpublish d =
        (.ok ((l.filter
            (fun e => decide (e.1 ∉ d.filesystem_mxds.map (fun fm => some fm.2)))).map
          (fun e => Doc.mk e.1 e.2.1 d.settings)),
         [⟨.debug, "Found %s documents to UN-publish"⟩])) := by
  refine ⟨?_, ?_, ?_⟩
  · intro h
    simp [items_to_unpublish, h]
  · intro hv hh hm
    simp [items_to_unpublish, hh, hm]
  · intro l hh hm
    have hlen : ¬(d.filesystem_mxds.length = 0) := by
      simpa [List.length_eq_zero] using hm
    simp only [items_to_unpublish, hh, hlen, if_false]
    rw [List.filter_congr (fun e _ => unpublish_filter_agrees d.filesystem_mxds e)]

/-- Concrete object exercising the interesting branch of **C1**: history
knows `svcA` (still on disk) and `svcB` (gone from disk). -/
def dUnpub : Documents :=
  ⟨some "/r", some (.entries [(some "/r/a", none, "svcA"), (some "/r/gone", none, "svcB")]),
   [(none, "/r/a")], none⟩

/-- Witness for **C1**: only the entry whose source path vanished from the
scan (`/r/gone`) produces a `Doc`. -/
theorem items_to_unpublish_cases_witness :
    dUnpub.history =
      some (.entries [(some "/r/a", none, "svcA"), (some "/r/gone", none, "svcB")]) ∧
    dUnpub.filesystem_mxds ≠ [] ∧
    items_to_unpublish dUnpub =
      (.ok [Doc.mk (some "/r/gone") none none],
       [⟨.debug, "Found %s documents to UN-publish"⟩]) := by
  refine ⟨rfl, by simp [dUnpub], ?_⟩
  have h := (items_to_unpublish_cases dUnpub).2.2
    [(some "/r/a", none, "svcA"), (some "/r/gone", none, "svcB")] rfl (by simp [dUnpub])
  rw [h]
  rfl

/-- The server URL exactly as the spec describes its resolution: the
`server_url` attribute when present and non-`None`, otherwise the URL the
`util` collaborator derives from the connection file named by the `server`
attribute (`None` when that attribute is missing). -/
def resolvedServerUrl (env : Env) (s? : Option Settings) : Option String :=
  match (attrServerUrl s?).join with
  | some u => some u
  | none => env.get_service_url_from_ags_file ((attrServer s?).join)

/-- The history value the server fetch returns: `None` when no URL resolves,
otherwise one `(None, folder, name)` entry per reported service. -/
theorem get_history_from_server_fst (env : Env) (s? : Option Settings) :
    (get_history_from_server env s?).1 =
      (resolvedServerUrl env s?).map (fun url => HistoryVal.entries
        ((env.get_services_from_server url).map (fun sv => (none, sv.1, sv.2)))) := by
  unfold get_history_from_server resolvedServerUrl
  cases hu : attrServerUrl s? with
  | some v =>
    cases v with
    | some u => simp
    | none =>
      cases hs : attrServer s? with
      | some w =>
        cases hw : env.get_service_url_from_ags_file w with
        | none => simp [hs, hw]
        | some url => simp [hs, hw]
      | none =>
        cases hw : env.get_service_url_from_ags_file none with
        | none => simp [hs, hw]
        | some url => simp [hs, hw]
  | none =>
    cases hs : attrServer s? with
    | some w =>
      cases hw : env.get_service_url_from_ags_file w with
      | none => simp [hs, hw]
      | some url => simp [hs, hw]
    | none =>
      cases hw : env.get_service_url_from_ags_file none with
      | none => simp [hs, hw]
      | some url => simp [hs, hw]

/-- When no URL resolves, the fetch's log ends with the "Unable to get
services" record at INFO level. -/
theorem get_history_from_server_none_log (env : Env) (s? : Option Settings)
    (h : resolvedServerUrl env s? = none) :
    (⟨.info, "Unable to get services (No server_url is defined)"⟩ : LogEntry) ∈
      (get_history_from_server env s?).2 := by
  unfold resolvedServerUrl at h
  unfold get_history_from_server
  cases hu : attrServerUrl s? with
  | some v =>
    cases v with
    | some u => rw [hu] at h; simp at h
    | none =>
      rw [hu] at h
      cases hs : attrServer s? with
      | some w => rw [hs] at h; simp at h; simp [hs, h]
      | none => rw [hs] at h; simp at h; simp [hs, h]
  | none =>
    rw [hu] at h
    cases hs : attrServer s? with
    | some w => rw [hs] at h; simp at h; simp [hs, h]
    | none => rw [hs] at h; simp at h; simp [hs, h]

/-- **C10**: a history produced by the server fetch consists solely of
entries with source path `None`, and on such a history (with a non-empty
scan) `items_to_unpublish` constructs one `Doc` for *every* entry, since
`None` is never among the scanned string paths. -/
theorem server_history_unpublishes_all (d : Documents) (l : List HistoryEntry) :
    (∀ (env : Env) (s? : Option Settings) (hv : HistoryVal),
      (get_history_from_server env s?).1 = some hv →
      ∃ l', hv = .entries l' ∧ ∀ e ∈ l', e.1 = none) ∧
    (d.history = some (.entries l) → (∀ e ∈ l, e.1 = none) →
      d.filesystem_mxds ≠ [] →
      (items_to_unpublish d).1 = .ok (l.map (fun e => Doc.mk e.1 e.2.1 d.settings))) := by
  constructor
  · intro env s? hv hfetch
    rw [get_history_from_server_fst] at hfetch
    obtain ⟨url, _, hurl⟩ := Option.map_eq_some'.mp hfetch
    refine ⟨(env.get_services_from_server url).map (fun sv => (none, sv.1, sv.2)),
      hurl.symm, ?_⟩
    intro e he
    obtain ⟨sv, _, hsv⟩ := List.mem_map.mp he
    rw [← hsv]
  · intro hh hall hm
    have hlen : ¬(d.filesystem_mxds.length = 0) := by
      simpa [List.length_eq_zero] using hm
    simp only [items_to_unpublish, hh, hlen, if_false]
    rw [List.filter_eq_self.mpr (fun e he => by simp [hall e he])]

/-- Environment whose server reports one service in folder `F`. -/
def envSrv : Env :=
  ⟨⟨fun _ => [], fun _ => false, fun _ => false⟩, fun _ => none,
   fun _ => [(some "F", "svcC")]⟩

/-- Settings carrying a direct `server_url`. -/
def sSrv : Option Settings := some ⟨none, none, some (some "http://x"), none⟩

/-- Object whose history consists of server-fetched (source-path-`None`)
entries while the scan still finds one file. -/
def dSrvDoc : Documents :=
  ⟨some "/r", some (.entries [(none, some "F", "svcC"), (none, none, "svcD")]),
   [(none, "/r/a")], none⟩

/-- Witness for **C10**: the concrete fetch yields only `None`-sourced
entries, and unpublish turns both history entries into `Doc`s. -/
theorem server_history_unpublishes_all_witness :
    (∃ l', HistoryVal.entries [(none, some "F", "svcC")] = .entries l' ∧
      ∀ e ∈ l', e.1 = none) ∧
    (items_to_unpublish dSrvDoc).1 =
      .ok [Doc.mk none (some "F") none, Doc.mk none none none] := by
  constructor
  · exact (server_history_unpublishes_all dSrvDoc []).1 envSrv sSrv
      (.entries [(none, some "F", "svcC")]) rfl
  · have h := (server_history_unpublishes_all dSrvDoc
      [(none, some "F", "svcC"), (none, none, "svcD")]).2 rfl
      (by decide) (by simp [dSrvDoc])
    rw [h]
    rfl

/-- **C6**: the server fetch resolves a URL from `server_url`, else from the
connection file named by `server`; with no URL it returns no history (and
logs, without raising); with a URL it returns one `(None, folder, name)`
entry per reported service. -/
theorem get_history_from_server_url_resolution (env : Env) (s? : Option Settings) :
    ((get_history_from_server env s?).1 =
      (resolvedServerUrl env s?).map (fun url => HistoryVal.entries
        ((env.get_services_from_server url).map (fun sv => (none, sv.1, sv.2))))) ∧
    (resolvedServerUrl env s? = none →
      (get_history_from_server env s?).1 = none ∧
      (⟨.info, "Unable to get services (No server_url is defined)"⟩ : LogEntry) ∈
        (get_history_from_server env s?).2) := by
  refine ⟨get_history_from_server_fst env s?,
    fun h => ⟨?_, get_history_from_server_none_log env s? h⟩⟩
  rw [get_history_from_server_fst, h]
  rfl

/-- Witness for **C6**: with `None` settings no URL resolves, so no history
comes back and the INFO record is logged. -/
theorem get_history_from_server_url_resolution_witness :
    resolvedServerUrl envTrivial none = none ∧
    (get_history_from_server envTrivial none).1 = none ∧
    (⟨.info, "Unable to get services (No server_url is defined)"⟩ : LogEntry) ∈
      (get_history_from_server envTrivial none).2 := by
  have h := (get_history_from_server_url_resolution envTrivial none).2 rfl
  exact ⟨rfl, h.1, h.2⟩

/-- A filesystem whose only directory is `/r`, and it is empty. -/
def fsEmptyDir : FileSystem := ⟨fun _ => [], fun p => p == "/r", fun _ => false⟩

def envEmptyDir : Env := ⟨fsEmptyDir, fun _ => none, fun _ => []⟩

/-- **C5** counterexample: for an object whose root directory exists and is
empty but whose history is `None`, `items_to_unpublish` returns `[]` with an
*empty* log — no warning — contradicting "returns the empty list with a
warning logged for every possible history value (including None)": the
history-is-`None` early return precedes the warning. -/
theorem empty_root_none_history_no_warning :
    envEmptyDir.fs.isdir "/r" = true ∧
    envEmptyDir.fs.listdir "/r" = [] ∧
    (Documents.init envEmptyDir (some "/r") none none).1.history = none ∧
    items_to_unpublish (Documents.init envEmptyDir (some "/r") none none).1 =
      (.ok [], []) :=
  ⟨rfl, rfl, rfl, rfl⟩

/-- **C5** (amended): for an object built on an existing empty root
directory, `items_to_publish` is empty and `items_to_unpublish` returns the
empty list for every history value; the warning is logged exactly when the
history is not `None` (when history is `None` the early return emits no
record). -/
theorem empty_root_reconciliation (env : Env) (root : String)
    (history : Option HistoryVal) (settings : Option Settings)
    (hdir : env.fs.isdir root = true) (hempty : env.fs.listdir root = []) :
    ((items_to_publish (Documents.init env (some root) history settings).1).1 = []) ∧
    ((items_to_unpublish (Documents.init env (some root) history settings).1).1 = .ok []) ∧
    ((items_to_unpublish (Documents.init env (some root) history settings).1).2 =
      if (Documents.init env (some root) history settings).1.history = none then []
      else [⟨.warn, "No *.mxd files found, Unwilling to unpublish all without an override."⟩]) := by
  obtain ⟨hp, hh, hm, hs⟩ := init_spec env (some root) history settings
  have hscan : get_filesystem_mxds env.fs (resolvedPath (some root) settings) = [] := by
    simp [resolvedPath, get_filesystem_mxds, hdir, hempty, find_mxds_in_folder]
  rw [hscan] at hm
  refine ⟨by simp [items_to_publish, hm], ?_, ?_⟩
  · cases hc : (Documents.init env (some root) history settings).1.history with
    | none => simp [items_to_unpublish, hc]
    | some hv => simp [items_to_unpublish, hc, hm]
  · cases hc : (Documents.init env (some root) history settings).1.history with
    | none => simp [items_to_unpublish, hc]
    | some hv => simp [items_to_unpublish, hc, hm]

/-- Witness for **C5** (amended) at a concrete empty root and a non-`None`
history: both results empty, warning logged. -/
theorem empty_root_reconciliation_witness :
    ((items_to_publish (Documents.init envEmptyDir (some "/r")
      (some (.entries [(some "/x", none, "svc")])) none).1).1 = []) ∧
    ((items_to_unpublish (Documents.init envEmptyDir (some "/r")
      (some (.entries [(some "/x", none, "svc")])) none).1).1 = .ok []) ∧
    ((items_to_unpublish (Documents.init envEmptyDir (some "/r")
      (some (.entries [(some "/x", none, "svc")])) none).1).2 =
      [⟨.warn, "No *.mxd files found, Unwilling to unpublish all without an override."⟩]) := by
  have h := empty_root_reconciliation envEmptyDir "/r"
    (some (.entries [(some "/x", none, "svc")])) none rfl rfl
  exact ⟨h.1, h.2.1, by rw [h.2.2]; rfl⟩

/-- Settings with `root_directory` absent and `history_file` present as
`None`. -/
def sQuiet : Settings := ⟨none, some none, none, none⟩

/-- **C8** counterexample: constructing with `root_directory` missing emits
*no* log record at all (the `except AttributeError` handler just assigns
`None`, and the setter's equality guard suppresses its debug record), so a
missing optional attribute during construction does not produce an
INFO/DEBUG record as claimed. -/
theorem init_missing_attribute_unlogged :
    attrRootDirectory (some sQuiet) = none ∧
    (Documents.init envTrivial none none (some sQuiet)).2 = [] ∧
    (Documents.init envTrivial none none (some sQuiet)).1.path = none :=
  ⟨rfl, rfl, rfl⟩

/-- **C8** (amended): a missing optional settings attribute is always caught
and control proceeds to the next fallback — `root_directory` and
`history_file` silently during construction, while the server fetch logs
missing `server_url` and `server` at INFO level; the exception never
reaches the caller. -/
theorem missing_attribute_fallback (env : Env) (s? : Option Settings) :
    (attrRootDirectory s? = none → (Documents.init env none none s?).1.path = none) ∧
    (attrHistoryFile s? = none →
      (Documents.init env none none s?).1.history = (get_history_from_server env s?).1) ∧
    (attrServerUrl s? = none →
      (⟨.info, "server_url not defined in the configuration settings"⟩ : LogEntry) ∈
        (get_history_from_server env s?).2) ∧
    ((attrServerUrl s?).join = none → attrServer s? = none →
      (⟨.info, "server not defined in the configuration settings"⟩ : LogEntry) ∈
        (get_history_from_server env s?).2) := by
  obtain ⟨hp, hh, _, _⟩ := init_spec env none none s?
  refine ⟨fun ha => ?_, fun ha => ?_, fun ha => ?_, fun ha hb => ?_⟩
  · rw [hp]; simp [resolvedPath, ha]
  · rw [hh]; simp [resolvedHistory, ha]
  · unfold get_history_from_server
    rw [ha]
    cases hs : attrServer s? with
    | some w =>
      cases hw : env.get_service_url_from_ags_file w with
      | none => simp [hs, hw]
      | some url => simp [hs, hw]
    | none =>
      cases hw : env.get_service_url_from_ags_file none with
      | none => simp [hs, hw]
      | some url => simp [hs, hw]
  · unfold get_history_from_server
    cases hu : attrServerUrl s? with
    | some v =>
      rw [hu] at ha
      simp [Option.join] at ha
      subst ha
      rw [hb]
      cases hw : env.get_service_url_from_ags_file none with
      | none => simp [hw]
      | some url => simp [hw]
    | none =>
      rw [hb]
      cases hw : env.get_service_url_from_ags_file none with
      | none => simp [hw]
      | some url => simp [hw]

/-- Witness for **C8** (amended) with settings `None` (every attribute
access raises): path and history fall back, both INFO records appear. -/
theorem missing_attribute_fallback_witness :
    (Documents.init envTrivial none none none).1.path = none ∧
    (Documents.init envTrivial none none none).1.history =
      (get_history_from_server envTrivial none).1 ∧
    (⟨.info, "server_url not defined in the configuration settings"⟩ : LogEntry) ∈
      (get_history_from_server envTrivial none).2 ∧
    (⟨.info, "server not defined in the configuration settings"⟩ : LogEntry) ∈
      (get_history_from_server envTrivial none).2 := by
  have h := missing_attribute_fallback envTrivial none
  exact ⟨h.1 rfl, h.2.1 rfl, h.2.2.1 rfl, h.2.2.2 rfl rfl⟩
